import Mathlib

/-!
Verification of hyprspaces-rs against its specification.

The Rust sources are shallowly embedded here.  Machine integers (`u32`)
are modelled as `Nat` with release-profile (two's-complement wrapping)
semantics: a subtraction `a - b` on `u32` becomes
`(a + u32size - b) % u32size`, so that underflow wraps exactly as the
compiled Rust does.  Remainder by zero panics in Rust in every profile,
so functions whose source can hit `% 0` additionally get a checked
variant returning `Option`, with `none` standing for the panic.
-/

namespace Hyprspaces

/-- The modulus of Rust's `u32` type. -/
def u32size : Nat := 4294967296

/-- Embeds `src/paired.rs`: `enum CycleDirection { Next, Prev }`. -/
inductive CycleDirection where
  | next
  | prev
deriving DecidableEq, Repr

/-- Embeds `src/paired.rs`: `normalize_workspace(id, offset) = ((id - 1) % offset) + 1`
on `u32`.  The subtraction wraps at `u32size` (release profile); `% offset`
is Lean's `Nat` remainder, which agrees with Rust for `offset ≠ 0`. -/
def normalize_workspace (id offset : Nat) : Nat :=
  (((id + u32size - 1) % u32size) % offset) + 1

/-- Checked form of `normalize_workspace`: Rust panics on `% 0`, modelled
as `none`. -/
def normalize_workspace? (id offset : Nat) : Option Nat :=
  if offset = 0 then none else some (normalize_workspace id offset)

/-- Embeds `src/paired.rs`: `cycle_target`.  In the `Prev`/`wrap` arm the source
computes `((base + offset - 2) % offset) + 1` on `u32`; the additions and
the subtraction wrap at `u32size`. -/
def cycle_target (base offset : Nat) (direction : CycleDirection) (wrap : Bool) : Nat :=
  match direction with
  | CycleDirection.next =>
      if wrap then (base % offset) + 1
      else if base ≥ offset then offset
      else base + 1
  | CycleDirection.prev =>
      if wrap then (((base + offset + (u32size - 2)) % u32size) % offset) + 1
      else if base ≤ 1 then 1
      else base - 1

/-- Checked form of `cycle_target`: both `wrap` arms take `% offset`,
which panics in Rust when `offset = 0`. -/
def cycle_target? (base offset : Nat) (direction : CycleDirection) (wrap : Bool) :
    Option Nat :=
  if wrap ∧ offset = 0 then none
  else some (cycle_target base offset direction wrap)

theorem normalize_workspace_pos (id offset : Nat) :
    1 ≤ normalize_workspace id offset := by
  simp [normalize_workspace]

theorem normalize_workspace_le (id offset : Nat) (hoff : 1 ≤ offset) :
    normalize_workspace id offset ≤ offset := by
  have h := Nat.mod_lt ((id + u32size - 1) % u32size) (show 0 < offset from hoff)
  unfold normalize_workspace
  omega

/-- Normalizing a value already in `[1, offset]` is the identity, provided
`offset` fits in `u32`. -/
theorem normalize_workspace_fixed (n offset : Nat) (h1 : 1 ≤ n) (h2 : n ≤ offset)
    (hu : offset < u32size) : normalize_workspace n offset = n := by
  have husz : u32size = 4294967296 := rfl
  have h1 : (n + u32size - 1) % u32size = n - 1 := by
    have hn : n + u32size - 1 = (n - 1) + 1 * u32size := by omega
    rw [hn, Nat.add_mul_mod_self_right]
    exact Nat.mod_eq_of_lt (by omega)
  rw [normalize_workspace, h1, Nat.mod_eq_of_lt (by omega)]
  omega

/-- On `[1, offset]` the wrapping `Next` cycle increments and wraps the top
slot to `1`. -/
theorem cycle_next_wrap_eq (base offset : Nat) (h1 : 1 ≤ base) (h2 : base ≤ offset) :
    cycle_target base offset CycleDirection.next true =
      if base = offset then 1 else base + 1 := by
  show (base % offset) + 1 = _
  by_cases h : base = offset
  · simp [h, Nat.mod_self]
  · rw [Nat.mod_eq_of_lt (by omega)]
    simp [h]

/-- On `[1, offset]` with `offset ≤ 2^31` (so that `base + offset` cannot
overflow `u32`), the wrapping `Prev` cycle decrements and wraps slot `1`
to `offset`. -/
theorem cycle_prev_wrap_eq (base offset : Nat) (h1 : 1 ≤ base) (h2 : base ≤ offset)
    (h3 : offset ≤ 2147483648) :
    cycle_target base offset CycleDirection.prev true =
      if base = 1 then offset else base - 1 := by
  have husz : u32size = 4294967296 := rfl
  show (((base + offset + (u32size - 2)) % u32size) % offset) + 1 = _
  have hbig : (base + offset + (u32size - 2)) % u32size = base + offset - 2 := by
    have h' : base + offset + (u32size - 2) = (base + offset - 2) + 1 * u32size := by
      omega
    rw [h', Nat.add_mul_mod_self_right]
    exact Nat.mod_eq_of_lt (by omega)
  rw [hbig]
  by_cases h : base = 1
  · subst h
    rw [Nat.mod_eq_of_lt (by omega)]
    simp
    omega
  · have hsplit : base + offset - 2 = (base - 2) + offset := by omega
    rw [hsplit, Nat.add_mod_right, Nat.mod_eq_of_lt (by omega)]
    simp [h]
    omega

theorem cycle_next_wrap_mem (base offset : Nat) (h1 : 1 ≤ base) (h2 : base ≤ offset) :
    1 ≤ cycle_target base offset CycleDirection.next true ∧
      cycle_target base offset CycleDirection.next true ≤ offset := by
  rw [cycle_next_wrap_eq base offset h1 h2]
  by_cases h : base = offset <;> simp [h] <;> omega

theorem cycle_prev_wrap_mem (base offset : Nat) (h1 : 1 ≤ base) (h2 : base ≤ offset)
    (h3 : offset ≤ 2147483648) :
    1 ≤ cycle_target base offset CycleDirection.prev true ∧
      cycle_target base offset CycleDirection.prev true ≤ offset := by
  rw [cycle_prev_wrap_eq base offset h1 h2 h3]
  by_cases h : base = 1 <;> simp [h] <;> omega

theorem cycle_prev_next (base offset : Nat) (h1 : 1 ≤ base) (h2 : base ≤ offset)
    (h3 : offset ≤ 2147483648) :
    cycle_target (cycle_target base offset CycleDirection.next true) offset
      CycleDirection.prev true = base := by
  rw [cycle_next_wrap_eq base offset h1 h2]
  by_cases h : base = offset
  · rw [if_pos h, cycle_prev_wrap_eq 1 offset (by omega) (by omega) h3]
    simp [h]
  · rw [if_neg h, cycle_prev_wrap_eq (base + 1) offset (by omega) (by omega) h3]
    have : ¬ base + 1 = 1 := by omega
    simp [this]

theorem cycle_next_prev (base offset : Nat) (h1 : 1 ≤ base) (h2 : base ≤ offset)
    (h3 : offset ≤ 2147483648) :
    cycle_target (cycle_target base offset CycleDirection.prev true) offset
      CycleDirection.next true = base := by
  rw [cycle_prev_wrap_eq base offset h1 h2 h3]
  by_cases h : base = 1
  · rw [if_pos h, cycle_next_wrap_eq offset offset (by omega) (by omega)]
    simp [h]
  · rw [if_neg h, cycle_next_wrap_eq (base - 1) offset (by omega) (by omega)]
    have : ¬ base - 1 = offset := by omega
    simp [this]
    omega

/-- C6 (counterexample): the claim states that `cycle_target` is total with
no error path for every direction, wrap flag and all inputs; but with
`wrap = true` and `offset = 0` the source divides by zero
(`base % offset`), which panics in Rust, modelled by `none`. -/
theorem C6_counterexample :
    cycle_target? 1 0 CycleDirection.next true = none ∧
      cycle_target? 1 0 CycleDirection.prev true = none := by
  constructor <;> rfl

/-- C6 (amended): `normalize_workspace` fails exactly when `offset = 0`
(under `u32` wrapping semantics the `id - 1` subtraction wraps rather than
failing), and `cycle_target` has no error path whenever `wrap = false` or
`offset ≠ 0`; only the two `wrap` arms can divide by zero, at
`offset = 0`. -/
theorem C6_normalize_cycle_totality :
    (∀ id offset : Nat, (normalize_workspace? id offset).isSome ↔ offset ≠ 0) ∧
    (∀ (base offset : Nat) (direction : CycleDirection) (wrap : Bool),
      wrap = false ∨ offset ≠ 0 → (cycle_target? base offset direction wrap).isSome) := by
  constructor
  · intro id offset
    by_cases h : offset = 0 <;> simp [normalize_workspace?, h]
  · intro base offset direction wrap h
    rcases h with h | h <;> simp [cycle_target?, h]

/-- C6 (witness): the amended theorem applied at concrete inputs. -/
theorem C6_witness :
    (normalize_workspace? 12 10).isSome ∧
      (cycle_target? 10 10 CycleDirection.next true).isSome :=
  ⟨(C6_normalize_cycle_totality.1 12 10).mpr (by decide),
    C6_normalize_cycle_totality.2 10 10 CycleDirection.next true (Or.inr (by decide))⟩

/-- C7: for `offset ≥ 1` (and `offset` in `u32` range, which is implicit in
the source type), `normalize_workspace id offset` lies in `[1, offset]` and
normalization is idempotent. -/
theorem C7_normalize_range_idempotent (id offset : Nat) (h1 : 1 ≤ offset)
    (h2 : offset < u32size) :
    (1 ≤ normalize_workspace id offset ∧ normalize_workspace id offset ≤ offset) ∧
      normalize_workspace (normalize_workspace id offset) offset =
        normalize_workspace id offset := by
  refine ⟨⟨normalize_workspace_pos id offset, normalize_workspace_le id offset h1⟩, ?_⟩
  exact normalize_workspace_fixed _ offset (normalize_workspace_pos id offset)
    (normalize_workspace_le id offset h1) h2

/-- C7 (witness): the theorem applied at `id = 12`, `offset = 10`. -/
theorem C7_witness :
    (1 ≤ normalize_workspace 12 10 ∧ normalize_workspace 12 10 ≤ 10) ∧
      normalize_workspace (normalize_workspace 12 10) 10 = normalize_workspace 12 10 :=
  C7_normalize_range_idempotent 12 10 (by decide) (by decide)

/-- C8 (counterexample): the claim asserts the wrap-around bijection and the
`Prev ∘ Next = id` law for every `offset ≥ 1`; but for `offset = 2^32 - 1`
and `base = 2` the `u32` addition `base + offset` in the `Prev`/`wrap` arm
overflows, and `Prev (Next 2) = Prev 3 = 1 ≠ 2`. -/
theorem C8_counterexample :
    cycle_target (cycle_target 2 4294967295 CycleDirection.next true) 4294967295
        CycleDirection.prev true = 1 ∧
      (1 : Nat) ≠ 2 ∧ 1 ≤ (2 : Nat) ∧ (2 : Nat) ≤ 4294967295 ∧
        1 ≤ (4294967295 : Nat) := by
  refine ⟨?_, by decide, by decide, by decide, by decide⟩
  rfl

/-- C8 (amended): restricted to `offset ≤ 2^31`, so that `base + offset`
cannot overflow `u32`, `cycle_target` with `wrap = true` is a bijection on
`[1, offset]` in both directions and `Prev` undoes `Next`. -/
theorem C8_cycle_wrap_bijection (offset : Nat) (h1 : 1 ≤ offset)
    (h2 : offset ≤ 2147483648) :
    Set.BijOn (fun b => cycle_target b offset CycleDirection.next true)
      (Set.Icc 1 offset) (Set.Icc 1 offset) ∧
    Set.BijOn (fun b => cycle_target b offset CycleDirection.prev true)
      (Set.Icc 1 offset) (Set.Icc 1 offset) ∧
    ∀ base ∈ Set.Icc 1 offset,
      cycle_target (cycle_target base offset CycleDirection.next true) offset
        CycleDirection.prev true = base := by
  have hmapsN : Set.MapsTo (fun b => cycle_target b offset CycleDirection.next true)
      (Set.Icc 1 offset) (Set.Icc 1 offset) := by
    intro b hb
    rcases hb with ⟨hb1, hb2⟩
    exact Set.mem_Icc.mpr (cycle_next_wrap_mem b offset hb1 hb2)
  have hmapsP : Set.MapsTo (fun b => cycle_target b offset CycleDirection.prev true)
      (Set.Icc 1 offset) (Set.Icc 1 offset) := by
    intro b hb
    rcases hb with ⟨hb1, hb2⟩
    exact Set.mem_Icc.mpr (cycle_prev_wrap_mem b offset hb1 hb2 h2)
  have hinv : Set.InvOn (fun b => cycle_target b offset CycleDirection.prev true)
      (fun b => cycle_target b offset CycleDirection.next true)
      (Set.Icc 1 offset) (Set.Icc 1 offset) := by
    constructor
    · intro b hb
      rcases hb with ⟨hb1, hb2⟩
      exact cycle_prev_next b offset hb1 hb2 h2
    · intro b hb
      rcases hb with ⟨hb1, hb2⟩
      exact cycle_next_prev b offset hb1 hb2 h2
  refine ⟨hinv.bijOn hmapsN hmapsP, hinv.symm.bijOn hmapsP hmapsN, ?_⟩
  intro base hb
  rcases hb with ⟨hb1, hb2⟩
  exact cycle_prev_next base offset hb1 hb2 h2

/-- C8 (witness): the amended theorem applied at `offset = 10`. -/
theorem C8_witness :
    Set.BijOn (fun b => cycle_target b 10 CycleDirection.next true)
        (Set.Icc 1 10) (Set.Icc 1 10) ∧
      cycle_target (cycle_target 3 10 CycleDirection.next true) 10
        CycleDirection.prev true = 3 :=
  ⟨(C8_cycle_wrap_bijection 10 (by decide) (by decide)).1,
    (C8_cycle_wrap_bijection 10 (by decide) (by decide)).2.2 3 (by constructor <;> decide)⟩

/-!
Debounce controllers from `src/daemon.rs`.  Monotonic instants are
modelled as `Nat` timestamps; Rust's `Instant::duration_since` saturates
at zero, exactly like `Nat` subtraction.
-/

/-- Embeds `src/daemon.rs`: `struct RebalanceDebounce`. -/
structure RebalanceDebounce where
  min_interval : Nat
  last_rebalance : Option Nat
  last_event : Option Nat
  pending : Bool
deriving DecidableEq, Repr

/-- Embeds `RebalanceDebounce::new`. -/
def RebalanceDebounce.new (min_interval : Nat) : RebalanceDebounce :=
  ⟨min_interval, none, none, false⟩

/-- Embeds `RebalanceDebounce::should_run_now`. -/
def RebalanceDebounce.should_run_now (s : RebalanceDebounce) (now : Nat) : Bool :=
  match s.last_rebalance with
  | none => true
  | some last => decide (s.min_interval ≤ now - last)

/-- Embeds `RebalanceDebounce::record_event`; the mutation is returned as the
second component. -/
def RebalanceDebounce.record_event (s : RebalanceDebounce) (now : Nat) :
    Bool × RebalanceDebounce :=
  let s := { s with last_event := some now }
  if s.should_run_now now then
    (true, { s with last_rebalance := some now, pending := false })
  else
    (false, { s with pending := true })

/-- Embeds `RebalanceDebounce::flush`. -/
def RebalanceDebounce.flush (s : RebalanceDebounce) (now : Nat) :
    Bool × RebalanceDebounce :=
  if s.pending = false then (false, s)
  else
    match s.last_event with
    | none => (false, s)
    | some last_event =>
      if now - last_event < s.min_interval then (false, s)
      else if s.should_run_now now = false then (false, s)
      else (true, { s with pending := false, last_rebalance := some now })

/-- Embeds `src/daemon.rs`: `struct FocusSwitchDebounce`. -/
structure FocusSwitchDebounce where
  min_interval : Nat
  last_switch : Option Nat
  last_workspace : Option Nat
deriving DecidableEq, Repr

/-- Embeds `FocusSwitchDebounce::new`. -/
def FocusSwitchDebounce.new (min_interval : Nat) : FocusSwitchDebounce :=
  ⟨min_interval, none, none⟩

/-- Embeds `FocusSwitchDebounce::should_switch`; the mutation (performed exactly
when the result is `true`) is returned as the second component. -/
def FocusSwitchDebounce.should_switch (s : FocusSwitchDebounce) (now workspace : Nat) :
    Bool × FocusSwitchDebounce :=
  let recent_same_workspace :=
    match s.last_switch, s.last_workspace with
    | some last_switch, some last_workspace =>
        if last_workspace = workspace then decide (now - last_switch < s.min_interval)
        else false
    | _, _ => false
  if recent_same_workspace then (false, s)
  else (true, { s with last_switch := some now, last_workspace := some workspace })

/-- C4: the rebalance debounce, clause by clause: the first recorded event
(from a fresh state) runs now; an event recorded within `min_interval` of
the last rebalance defers and sets `pending`; a flush before
`min_interval` has elapsed since the last recorded event returns `false`
and leaves the state unchanged; a flush after both the quiet period since
the last event and `min_interval` since the last rebalance (with a defer
pending) returns `true`, and an immediate second flush returns `false`. -/
theorem C4_rebalance_debounce (min : Nat) :
    (∀ now, ((RebalanceDebounce.new min).record_event now).1 = true) ∧
    (∀ (s : RebalanceDebounce) (now r : Nat), s.min_interval = min →
      s.last_rebalance = some r → now - r < min →
      (s.record_event now).1 = false ∧ (s.record_event now).2.pending = true) ∧
    (∀ (s : RebalanceDebounce) (now e : Nat), s.min_interval = min →
      s.last_event = some e → now - e < min →
      (s.flush now).1 = false ∧ (s.flush now).2 = s) ∧
    (∀ (s : RebalanceDebounce) (now e r : Nat), s.min_interval = min →
      s.pending = true → s.last_event = some e → s.last_rebalance = some r →
      min ≤ now - e → min ≤ now - r →
      (s.flush now).1 = true ∧ ((s.flush now).2.flush now).1 = false) := by
  refine ⟨?_, ?_, ?_, ?_⟩
  · intro now
    simp [RebalanceDebounce.new, RebalanceDebounce.record_event,
      RebalanceDebounce.should_run_now]
  · intro s now r hmin hlast hrec
    have hcond : s.should_run_now now = false := by
      simp [RebalanceDebounce.should_run_now, hlast, hmin]
      omega
    constructor <;>
      simp [RebalanceDebounce.record_event, RebalanceDebounce.should_run_now,
        hlast, hmin, hrec, Nat.not_le.mpr hrec]
  · intro s now e hmin hlast hquiet
    by_cases hp : s.pending = false
    · constructor <;> simp [RebalanceDebounce.flush, hp]
    · rw [Bool.not_eq_false] at hp
      constructor <;> simp [RebalanceDebounce.flush, hp, hlast, hmin, hquiet]
  · intro s now e r hmin hp hle hlr hquiet hrun
    have hq : ¬ now - e < s.min_interval := by omega
    have hsr : s.should_run_now now = true := by
      simp [RebalanceDebounce.should_run_now, hlr, hmin]
      omega
    have hfl : s.flush now = (true, { s with pending := false, last_rebalance := some now }) := by
      simp [RebalanceDebounce.flush, hp, hle, hq, hsr]
    refine ⟨by simp [hfl], ?_⟩
    rw [hfl]
    simp [RebalanceDebounce.flush]

/-- C4 (witness): the fourth clause of the theorem applied at the concrete
state reached after a deferred event (`min_interval = 200`, last rebalance
at `0`, last event at `100`, pending), flushed at `now = 300`. -/
theorem C4_witness :
    ((RebalanceDebounce.mk 200 (some 0) (some 100) true).flush 300).1 = true ∧
      (((RebalanceDebounce.mk 200 (some 0) (some 100) true).flush 300).2.flush 300).1 =
        false :=
  (C4_rebalance_debounce 200).2.2.2 (RebalanceDebounce.mk 200 (some 0) (some 100) true)
    300 100 0 rfl rfl rfl rfl (by decide) (by decide)

/-- C5: the focus-switch debounce: `should_switch` returns `false` exactly
when the same target workspace was last switched to less than
`min_interval` before `now`; a different target than the last switch is
always allowed; from a fresh state, two calls for `W` within
`min_interval` yield one `true` then one `false`, while `W` followed by a
different `V` yields two `true`s. -/
theorem C5_focus_switch_debounce :
    (∀ (s : FocusSwitchDebounce) (now w : Nat),
      (s.should_switch now w).1 = false ↔
        ∃ ls, s.last_switch = some ls ∧ s.last_workspace = some w ∧
          now - ls < s.min_interval) ∧
    (∀ (s : FocusSwitchDebounce) (now w : Nat), s.last_workspace ≠ some w →
      (s.should_switch now w).1 = true) ∧
    (∀ (m t0 t1 W : Nat), t1 - t0 < m →
      (((FocusSwitchDebounce.new m).should_switch t0 W).1 = true ∧
        ((((FocusSwitchDebounce.new m).should_switch t0 W).2).should_switch t1 W).1 =
          false)) ∧
    (∀ (m t0 t1 W V : Nat), V ≠ W →
      (((FocusSwitchDebounce.new m).should_switch t0 W).1 = true ∧
        ((((FocusSwitchDebounce.new m).should_switch t0 W).2).should_switch t1 V).1 =
          true)) := by
  have hchar : ∀ (s : FocusSwitchDebounce) (now w : Nat),
      (s.should_switch now w).1 = false ↔
        ∃ ls, s.last_switch = some ls ∧ s.last_workspace = some w ∧
          now - ls < s.min_interval := by
    intro s now w
    rcases hs : s.last_switch with _ | ls <;> rcases hw : s.last_workspace with _ | lw <;>
      simp [FocusSwitchDebounce.should_switch, hs, hw]
    by_cases h : lw = w
    · subst h
      by_cases hlt : now - ls < s.min_interval <;> simp [hlt]
    · simp [h, Ne.symm h]
  refine ⟨hchar, ?_, ?_, ?_⟩
  · intro s now w hne
    rcases h : (s.should_switch now w).1 with _ | _
    · exact absurd ((hchar s now w).mp h).choose_spec.2.1 (by exact fun hc => hne hc)
    · rfl
  · intro m t0 t1 W hlt
    constructor
    · simp [FocusSwitchDebounce.new, FocusSwitchDebounce.should_switch]
    · simp [FocusSwitchDebounce.new, FocusSwitchDebounce.should_switch, hlt]
  · intro m t0 t1 W V hne
    constructor
    · simp [FocusSwitchDebounce.new, FocusSwitchDebounce.should_switch]
    · simp [FocusSwitchDebounce.new, FocusSwitchDebounce.should_switch, hne, Ne.symm hne]

/-- C5 (witness): two calls for workspace `7` at times `0` and `50` with
`min_interval = 100` yield `true` then `false`. -/
theorem C5_witness :
    (((FocusSwitchDebounce.new 100).should_switch 0 7).1 = true ∧
      ((((FocusSwitchDebounce.new 100).should_switch 0 7).2).should_switch 50 7).1 =
        false) :=
  C5_focus_switch_debounce.2.2.1 100 0 50 7 (by decide)

/-!
String primitives.  The Rust code uses `str::trim`, `str::to_lowercase`,
`str::split_once` and `u32::from_str`; they are modelled here on the
character list underlying `String` (covering the ASCII range these
identifiers live in) so that every definition evaluates inside the
kernel.
-/

/-- ASCII whitespace, the fragment of Rust's `char::is_whitespace`
relevant to compositor identifiers. -/
def is_ascii_whitespace (c : Char) : Bool :=
  c = ' ' ∨ c = '\t' ∨ c = '\n' ∨ c = '\r'

/-- Model of Rust `str::trim` (ASCII whitespace). -/
def str_trim (s : String) : String :=
  String.mk (((s.data.dropWhile is_ascii_whitespace).reverse.dropWhile
    is_ascii_whitespace).reverse)

/-- Model of Rust `str::trim_end` (ASCII whitespace). -/
def str_trim_end (s : String) : String :=
  String.mk ((s.data.reverse.dropWhile is_ascii_whitespace).reverse)

/-- Model of Rust `char::to_lowercase` on the ASCII range. -/
def lower_char (c : Char) : Char :=
  if 65 ≤ c.toNat ∧ c.toNat ≤ 90 then Char.ofNat (c.toNat + 32) else c

/-- Model of Rust `str::to_lowercase` (ASCII range). -/
def str_to_lower (s : String) : String :=
  String.mk (s.data.map lower_char)

/-- Whether `p` matches the front of `s` (character lists). -/
def matches_front : List Char → List Char → Bool
  | [], _ => true
  | _ :: _, [] => false
  | p :: ps, c :: cs => p = c && matches_front ps cs

/-- Model of Rust `str::starts_with`. -/
def str_starts_with (s p : String) : Bool :=
  matches_front p.data s.data

/-- Model of Rust `str::ends_with`. -/
def str_ends_with (s p : String) : Bool :=
  matches_front p.data.reverse s.data.reverse

/-- Split at the first occurrence of `sep`, character-list worker. -/
def find_split (sep : List Char) : List Char → Option (List Char × List Char)
  | [] => none
  | c :: rest =>
      if matches_front sep (c :: rest) then some ([], (c :: rest).drop sep.length)
      else
        match find_split sep rest with
        | some (before, after) => some (c :: before, after)
        | none => none

/-- Model of Rust `str::split_once`. -/
def split_once (s sep : String) : Option (String × String) :=
  match find_split sep.data s.data with
  | some (before, after) => some (String.mk before, String.mk after)
  | none => none

/-- Model of Rust `payload.parse::<u32>().ok()` for plain decimal digit
strings (the shape every compositor payload uses). -/
def parse_u32 (s : String) : Option Nat :=
  if s.data ≠ [] ∧ s.data.all (fun c => 48 ≤ c.toNat ∧ c.toNat ≤ 57) then
    let n := s.data.foldl (fun acc c => acc * 10 + (c.toNat - 48)) 0
    if n < u32size then some n else none
  else none

/-!
Data model shared by `src/hyprctl.rs` and `src/session.rs`.  The Rust
field `class` is a Lean keyword and is embedded as `cls`.
-/

/-- Embeds `src/config.rs`: `struct Config`. -/
structure Config where
  primary_monitor : String
  secondary_monitor : String
  paired_offset : Nat
  workspace_count : Nat
deriving DecidableEq, Repr

/-- Embeds `src/hyprctl.rs`: `struct WorkspaceRef`. -/
structure WorkspaceRef where
  id : Nat
  name : Option String
deriving DecidableEq, Repr

/-- Embeds `src/hyprctl.rs`: `struct ClientInfo`. -/
structure ClientInfo where
  address : String
  workspace : WorkspaceRef
  cls : Option String
  title : Option String
  initial_class : Option String
  initial_title : Option String
  app_id : Option String
  pid : Option Int
deriving DecidableEq, Repr

/-- Embeds `src/session.rs`: `struct SnapshotClient`. -/
structure SnapshotClient where
  address : String
  cls : Option String
  title : Option String
  initial_class : Option String
  initial_title : Option String
  app_id : Option String
  pid : Option Int
  workspace_id : Nat
  workspace_name : Option String
  paired_slot : Nat
deriving DecidableEq, Repr, Inhabited

/-- Embeds `src/session.rs`: `struct SnapshotFocus`. -/
structure SnapshotFocus where
  monitor : Option String
  workspace_id : Nat
deriving DecidableEq, Repr

/-- Embeds `src/session.rs`: `struct SnapshotMonitor`. -/
structure SnapshotMonitor where
  id : Int
  name : String
deriving DecidableEq, Repr

/-- Embeds `src/session.rs`: `struct SnapshotWorkspace`. -/
structure SnapshotWorkspace where
  id : Nat
  name : Option String
  monitor : Option String
  windows : Nat
deriving DecidableEq, Repr

/-- Embeds `src/session.rs`: `struct SessionSnapshot`. -/
structure SessionSnapshot where
  version : Nat
  created_at : Nat
  signature : Option String
  paired_offset : Nat
  workspace_count : Nat
  focus : SnapshotFocus
  monitors : List SnapshotMonitor
  workspaces : List SnapshotWorkspace
  clients : List SnapshotClient
deriving DecidableEq, Repr

/-- Embeds `src/session.rs`: `enum RestoreMode`. -/
inductive RestoreMode where
  | auto
  | same
  | cold
deriving DecidableEq, Repr

/-- Embeds `src/hyprctl.rs`: `struct HyprctlBatch`. -/
structure HyprctlBatch where
  commands : List String
deriving DecidableEq, Repr

/-- Embeds `HyprctlBatch::new`. -/
def HyprctlBatch.new : HyprctlBatch := ⟨[]⟩

/-- Embeds `HyprctlBatch::dispatch`. -/
def HyprctlBatch.dispatch (b : HyprctlBatch) (dispatcher argument : String) :
    HyprctlBatch :=
  ⟨b.commands ++ ["dispatch " ++ dispatcher ++ " " ++ argument]⟩

/-- Rendering of a joined command list, `Vec::join(" ; ")`. -/
def join_commands : List String → String
  | [] => ""
  | [c] => c
  | c :: rest => c ++ " ; " ++ join_commands rest

/-- Embeds `HyprctlBatch::to_argument`. -/
def HyprctlBatch.to_argument (b : HyprctlBatch) : String :=
  join_commands b.commands

/-- Embeds `src/session.rs`: `normalize_value` = `value.trim().to_lowercase()`. -/
def normalize_value (value : String) : String :=
  str_to_lower (str_trim value)

/-- Embeds `src/session.rs`: `normalized_eq`; a side that is `None` never counts
as a match. -/
def normalized_eq (left right : Option String) : Bool :=
  match left, right with
  | some l, some r => normalize_value l = normalize_value r
  | _, _ => false

/-- Embeds `src/session.rs`: `match_score` — weighted identity attributes:
app id 4, class 3, initial class 2, title 1. -/
def match_score (snapshot : SnapshotClient) (client : ClientInfo) : Nat :=
  (if normalized_eq snapshot.app_id client.app_id then 4 else 0) +
    (if normalized_eq snapshot.cls client.cls then 3 else 0) +
    (if normalized_eq snapshot.initial_class client.initial_class then 2 else 0) +
    (if normalized_eq snapshot.title client.title then 1 else 0)

/-- Embeds `src/session.rs`: `is_special_workspace_name`. -/
def is_special_workspace_name (name : Option String) : Bool :=
  match name with
  | some value => str_starts_with value "special:"
  | none => false

/-- Embeds `src/session.rs`: `workspace_target`. -/
def workspace_target (snapshot : SnapshotClient) : String :=
  if is_special_workspace_name snapshot.workspace_name then
    match snapshot.workspace_name with
    | some name => name
    | none => toString snapshot.workspace_id
  else
    toString snapshot.workspace_id

/-- Embeds `src/session.rs`: `snapshot_matches_current`. -/
def snapshot_matches_current (snapshot : SnapshotClient) (current_id : Nat)
    (current_name : Option String) : Bool :=
  if is_special_workspace_name snapshot.workspace_name then
    snapshot.workspace_name = current_name
  else
    snapshot.workspace_id = current_id

/-- Embeds `src/session.rs`: `resolve_restore_mode`. -/
def resolve_restore_mode (mode : RestoreMode)
    (snapshot_signature current_signature : Option String) : RestoreMode :=
  match mode with
  | RestoreMode.auto =>
      if snapshot_signature.isSome ∧ snapshot_signature = current_signature then
        RestoreMode.same
      else RestoreMode.cold
  | other => other

/-- The `current_by_address` lookup of `restore_same_session`: the source
fills a `HashMap` keyed by address, so a later duplicate overwrites an
earlier one — the last entry with the address wins. -/
def current_by_address (clients : List ClientInfo) (addr : String) :
    Option (Nat × Option String) :=
  match clients.reverse.find? (fun c => c.address = addr) with
  | some c => some (c.workspace.id, c.workspace.name)
  | none => none

/-- Embeds `src/session.rs`: `restore_same_session`. -/
def restore_same_session (snapshot : SessionSnapshot)
    (current_clients : List ClientInfo) : HyprctlBatch :=
  snapshot.clients.foldl
    (fun batch client =>
      match current_by_address current_clients client.address with
      | some (current_id, current_name) =>
          if ¬ snapshot_matches_current client current_id current_name then
            batch.dispatch "movetoworkspacesilent"
              (workspace_target client ++ ",address:" ++ client.address)
          else batch
      | none => batch)
    HyprctlBatch.new

/-- One iteration of the best/second-best scan inside
`restore_cold_session` (the body of the candidate loop): used or
zero-scoring candidates are skipped, a strictly better score displaces the
best, an equal score records a tie into `second_best`, and any other
score can only raise `second_best`. -/
def scan_step (client : ClientInfo) (used : List Nat)
    (acc : Option (Nat × Nat) × Nat) (p : Nat × SnapshotClient) :
    Option (Nat × Nat) × Nat :=
  if p.1 ∈ used then acc
  else
    let score := match_score p.2 client
    if score = 0 then acc
    else
      match acc with
      | (some (bi, bs), second_best) =>
          if bs < score then (some (p.1, score), max second_best bs)
          else if score = bs then (some (bi, bs), bs)
          else if second_best < score then (some (bi, bs), score)
          else (some (bi, bs), second_best)
      | (none, second_best) => (some (p.1, score), second_best)

/-- The candidate scan of `restore_cold_session` for one live client:
fold `scan_step` over the enumerated snapshot clients starting from
`best = None`, `second_best = 0`. -/
def find_best (snapshot_clients : List SnapshotClient) (used : List Nat)
    (client : ClientInfo) : Option (Nat × Nat) × Nat :=
  snapshot_clients.enum.foldl (scan_step client used) (none, 0)

/-- The mutable state threaded through `restore_cold_session`:
the batch under construction, `used_snapshot` and `matched_addresses`.
The source uses `HashSet`s; lists with membership give the same
semantics. -/
structure ColdState where
  batch : HyprctlBatch
  used_snapshot : List Nat
  matched_addresses : List String
deriving DecidableEq, Repr

/-- The identity-matching phase of `restore_cold_session`, one live
client: an unambiguous winner with score `≥ 4` is accepted; a move is
emitted when its recorded workspace differs from the live one; the
candidate index and the live address are marked. -/
def cold_match_step (snapshot_clients : List SnapshotClient) (st : ColdState)
    (client : ClientInfo) : ColdState :=
  match find_best snapshot_clients st.used_snapshot client with
  | (some (idx, score), second_best) =>
      if 4 ≤ score ∧ second_best < score then
        let snapshot_client := (snapshot_clients.get? idx).getD default
        let batch :=
          if client.workspace.id ≠ snapshot_client.workspace_id then
            st.batch.dispatch "movetoworkspacesilent"
              (workspace_target snapshot_client ++ ",address:" ++ client.address)
          else st.batch
        ⟨batch, idx :: st.used_snapshot, client.address :: st.matched_addresses⟩
      else st
  | (none, _) => st

/-- The pairing-slot fallback phase of `restore_cold_session`, one live
client: matched or special-workspace clients are skipped; otherwise the
client is re-normalized to its pairing slot when that differs. -/
def cold_fallback_step (paired_offset : Nat) (matched_addresses : List String)
    (batch : HyprctlBatch) (client : ClientInfo) : HyprctlBatch :=
  if client.address ∈ matched_addresses then batch
  else if is_special_workspace_name client.workspace.name then batch
  else
    let paired_slot := normalize_workspace client.workspace.id paired_offset
    if paired_slot ≠ client.workspace.id then
      batch.dispatch "movetoworkspacesilent"
        (toString paired_slot ++ ",address:" ++ client.address)
    else batch

/-- Embeds `src/session.rs`: `restore_cold_session`. -/
def restore_cold_session (snapshot : SessionSnapshot)
    (current_clients : List ClientInfo) (config : Config) : HyprctlBatch :=
  let st := current_clients.foldl (cold_match_step snapshot.clients)
    ⟨HyprctlBatch.new, [], []⟩
  current_clients.foldl
    (cold_fallback_step config.paired_offset st.matched_addresses) st.batch

/-- Embeds `src/session.rs`: `restore_batch`. -/
def restore_batch (snapshot : SessionSnapshot) (mode : RestoreMode)
    (current_signature : Option String) (current_clients : List ClientInfo)
    (config : Config) : HyprctlBatch :=
  match resolve_restore_mode mode snapshot.signature current_signature with
  | RestoreMode.same => restore_same_session snapshot current_clients
  | RestoreMode.cold => restore_cold_session snapshot current_clients config
  | RestoreMode.auto => HyprctlBatch.new

/-- Pure core of `src/session.rs` `restore_session` after the snapshot
file has been read and JSON-parsed: the parsed snapshot is applied
directly.  No field of the snapshot is validated — in particular the
`version` field is never inspected — and the resulting commands are sent
as one batch when non-empty; the only failure paths of `restore_session`
are file IO, JSON syntax errors and the batch call itself. -/
def restore_session_commands (snapshot : SessionSnapshot) (mode : RestoreMode)
    (current_signature : Option String) (current_clients : List ClientInfo)
    (config : Config) : List String :=
  (restore_batch snapshot mode current_signature current_clients config).commands

/-!
Ghost move list for the cold restore: the same two folds, recording
`(target, address)` pairs instead of rendered command strings.  Proved
below to render pointwise to `restore_cold_session`'s batch.
-/

/-- Embeds `cold_match_step` at the level of `(target, address)` move pairs. -/
structure ColdStateM where
  moves : List (String × String)
  used_snapshot : List Nat
  matched_addresses : List String
deriving DecidableEq, Repr

/-- Move-pair version of `cold_match_step`. -/
def cold_match_step_m (snapshot_clients : List SnapshotClient) (st : ColdStateM)
    (client : ClientInfo) : ColdStateM :=
  match find_best snapshot_clients st.used_snapshot client with
  | (some (idx, score), second_best) =>
      if 4 ≤ score ∧ second_best < score then
        let snapshot_client := (snapshot_clients.get? idx).getD default
        let moves :=
          if client.workspace.id ≠ snapshot_client.workspace_id then
            st.moves ++ [(workspace_target snapshot_client, client.address)]
          else st.moves
        ⟨moves, idx :: st.used_snapshot, client.address :: st.matched_addresses⟩
      else st
  | (none, _) => st

/-- Move-pair version of `cold_fallback_step`. -/
def cold_fallback_step_m (paired_offset : Nat) (matched_addresses : List String)
    (moves : List (String × String)) (client : ClientInfo) :
    List (String × String) :=
  if client.address ∈ matched_addresses then moves
  else if is_special_workspace_name client.workspace.name then moves
  else
    let paired_slot := normalize_workspace client.workspace.id paired_offset
    if paired_slot ≠ client.workspace.id then
      moves ++ [(toString paired_slot, client.address)]
    else moves

/-- Move-pair version of `restore_cold_session`. -/
def cold_moves (snapshot_clients : List SnapshotClient)
    (current_clients : List ClientInfo) (paired_offset : Nat) :
    List (String × String) :=
  let st := current_clients.foldl (cold_match_step_m snapshot_clients) ⟨[], [], []⟩
  current_clients.foldl
    (cold_fallback_step_m paired_offset st.matched_addresses) st.moves

/-- Rendering of one move pair as the dispatched command. -/
def render_move (m : String × String) : String :=
  "dispatch " ++ "movetoworkspacesilent" ++ " " ++ (m.1 ++ ",address:" ++ m.2)

/-- Moves for one address in a ghost move list. -/
def moves_for_address (moves : List (String × String)) (addr : String) : Nat :=
  (moves.filter (fun m => m.2 = addr)).length

/-!
Invariant of the best/second-best scan: over the processed prefix, the
accumulator holds a maximal unused nonzero-scoring candidate, and
`second_best < best` exactly certifies that every other unused candidate
scores strictly below the best.
-/

/-- Scan invariant when no candidate has been retained yet. -/
def ScanInvNone (client : ClientInfo) (used : List Nat)
    (pre : List (Nat × SnapshotClient)) (second_best : Nat) : Prop :=
  second_best = 0 ∧ ∀ q ∈ pre, q.1 ∈ used ∨ match_score q.2 client = 0

/-- Scan invariant when a best candidate `(bi, bs)` is retained. -/
def ScanInvSome (client : ClientInfo) (used : List Nat)
    (pre : List (Nat × SnapshotClient)) (bi bs second_best : Nat) : Prop :=
  bs ≠ 0 ∧ bi ∉ used ∧
    (∃ q ∈ pre, q.1 = bi ∧ match_score q.2 client = bs) ∧
    (∀ q ∈ pre, q.1 ∉ used → match_score q.2 client ≤ bs) ∧
    (second_best < bs →
      ∀ q ∈ pre, q.1 ≠ bi → q.1 ∉ used → match_score q.2 client < bs)

/-- Scan invariant over an accumulator. -/
def ScanInv (client : ClientInfo) (used : List Nat)
    (pre : List (Nat × SnapshotClient)) : Option (Nat × Nat) × Nat → Prop
  | (none, second_best) => ScanInvNone client used pre second_best
  | (some (bi, bs), second_best) => ScanInvSome client used pre bi bs second_best

theorem scan_step_inv (client : ClientInfo) (used : List Nat)
    (pre : List (Nat × SnapshotClient)) (acc : Option (Nat × Nat) × Nat)
    (p : Nat × SnapshotClient) (h : ScanInv client used pre acc) :
    ScanInv client used (pre ++ [p]) (scan_step client used acc p) := by
  rcases acc with ⟨best, second⟩
  by_cases hu : p.1 ∈ used
  · rw [scan_step, if_pos hu]
    cases best with
    | none =>
        rcases h with ⟨h0, hall⟩
        refine ⟨h0, ?_⟩
        intro q hq
        rcases List.mem_append.mp hq with hq | hq
        · exact hall q hq
        · rw [List.mem_singleton.mp hq]; exact Or.inl hu
    | some b =>
        rcases b with ⟨bi, bs⟩
        rcases h with ⟨hns, hbu, ⟨q0, hq0, hq0i, hq0s⟩, hbound, hstrict⟩
        refine ⟨hns, hbu, ⟨q0, List.mem_append_left _ hq0, hq0i, hq0s⟩, ?_, ?_⟩
        · intro q hq hqu
          rcases List.mem_append.mp hq with hq | hq
          · exact hbound q hq hqu
          · rw [List.mem_singleton.mp hq] at hqu; exact absurd hu hqu
        · intro hlt q hq hqi hqu
          rcases List.mem_append.mp hq with hq | hq
          · exact hstrict hlt q hq hqi hqu
          · rw [List.mem_singleton.mp hq] at hqu; exact absurd hu hqu
  · by_cases hs : match_score p.2 client = 0
    · rw [scan_step, if_neg hu]
      simp only [hs, if_pos rfl]
      cases best with
      | none =>
          rcases h with ⟨h0, hall⟩
          refine ⟨h0, ?_⟩
          intro q hq
          rcases List.mem_append.mp hq with hq | hq
          · exact hall q hq
          · rw [List.mem_singleton.mp hq]; exact Or.inr hs
      | some b =>
          rcases b with ⟨bi, bs⟩
          rcases h with ⟨hns, hbu, ⟨q0, hq0, hq0i, hq0s⟩, hbound, hstrict⟩
          refine ⟨hns, hbu, ⟨q0, List.mem_append_left _ hq0, hq0i, hq0s⟩, ?_, ?_⟩
          · intro q hq hqu
            rcases List.mem_append.mp hq with hq | hq
            · exact hbound q hq hqu
            · rw [List.mem_singleton.mp hq, hs]; exact Nat.zero_le _
          · intro hlt q hq hqi hqu
            rcases List.mem_append.mp hq with hq | hq
            · exact hstrict hlt q hq hqi hqu
            · rw [List.mem_singleton.mp hq, hs]; exact Nat.pos_of_ne_zero hns
    · cases best with
      | none =>
          rcases h with ⟨h0, hall⟩
          rw [scan_step, if_neg hu]
          simp only [hs, if_neg hs]
          refine ⟨hs, hu, ⟨p, List.mem_append_right _ (List.mem_singleton.mpr rfl),
            rfl, rfl⟩, ?_, ?_⟩
          · intro q hq hqu
            rcases List.mem_append.mp hq with hq | hq
            · rcases hall q hq with hc | hc
              · exact absurd hc hqu
              · rw [hc]; exact Nat.zero_le _
            · rw [List.mem_singleton.mp hq]
          · intro _ q hq hqi hqu
            rcases List.mem_append.mp hq with hq | hq
            · rcases hall q hq with hc | hc
              · exact absurd hc hqu
              · rw [hc]; exact Nat.pos_of_ne_zero hs
            · exact absurd (congrArg Prod.fst (List.mem_singleton.mp hq)) hqi
      | some b =>
          rcases b with ⟨bi, bs⟩
          rcases h with ⟨hns, hbu, ⟨q0, hq0, hq0i, hq0s⟩, hbound, hstrict⟩
          rw [scan_step, if_neg hu]
          simp only [if_neg hs]
          by_cases h1 : bs < match_score p.2 client
          · simp only [if_pos h1]
            refine ⟨hs, hu, ⟨p, List.mem_append_right _ (List.mem_singleton.mpr rfl),
              rfl, rfl⟩, ?_, ?_⟩
            · intro q hq hqu
              rcases List.mem_append.mp hq with hq | hq
              · exact Nat.le_of_lt (Nat.lt_of_le_of_lt (hbound q hq hqu) h1)
              · rw [List.mem_singleton.mp hq]
            · intro _ q hq hqi hqu
              rcases List.mem_append.mp hq with hq | hq
              · exact Nat.lt_of_le_of_lt (hbound q hq hqu) h1
              · exact absurd (congrArg Prod.fst (List.mem_singleton.mp hq)) hqi
          · simp only [if_neg h1]
            by_cases h2 : match_score p.2 client = bs
            · simp only [if_pos h2]
              refine ⟨hns, hbu, ⟨q0, List.mem_append_left _ hq0, hq0i, hq0s⟩, ?_, ?_⟩
              · intro q hq hqu
                rcases List.mem_append.mp hq with hq | hq
                · exact hbound q hq hqu
                · rw [List.mem_singleton.mp hq, h2]
              · intro hlt
                exact absurd hlt (Nat.lt_irrefl bs)
            · simp only [if_neg h2]
              have hplt : match_score p.2 client < bs :=
                Nat.lt_of_le_of_ne (Nat.not_lt.mp h1) h2
              by_cases h3 : second < match_score p.2 client
              · simp only [if_pos h3]
                refine ⟨hns, hbu, ⟨q0, List.mem_append_left _ hq0, hq0i, hq0s⟩, ?_, ?_⟩
                · intro q hq hqu
                  rcases List.mem_append.mp hq with hq | hq
                  · exact hbound q hq hqu
                  · rw [List.mem_singleton.mp hq]; exact Nat.le_of_lt hplt
                · intro hlt q hq hqi hqu
                  rcases List.mem_append.mp hq with hq | hq
                  · exact hstrict (Nat.lt_trans h3 hlt) q hq hqi hqu
                  · rw [List.mem_singleton.mp hq]; exact hplt
              · simp only [if_neg h3]
                refine ⟨hns, hbu, ⟨q0, List.mem_append_left _ hq0, hq0i, hq0s⟩, ?_, ?_⟩
                · intro q hq hqu
                  rcases List.mem_append.mp hq with hq | hq
                  · exact hbound q hq hqu
                  · rw [List.mem_singleton.mp hq]; exact Nat.le_of_lt hplt
                · intro hlt q hq hqi hqu
                  rcases List.mem_append.mp hq with hq | hq
                  · exact hstrict hlt q hq hqi hqu
                  · rw [List.mem_singleton.mp hq]; exact hplt

theorem scan_foldl_inv (client : ClientInfo) (used : List Nat) :
    ∀ (l : List (Nat × SnapshotClient)) (pre : List (Nat × SnapshotClient))
      (acc : Option (Nat × Nat) × Nat), ScanInv client used pre acc →
      ScanInv client used (pre ++ l) (l.foldl (scan_step client used) acc) := by
  intro l
  induction l with
  | nil => intro pre acc h; simpa using h
  | cons p rest ih =>
      intro pre acc h
      have hstep := scan_step_inv client used pre acc p h
      have := ih (pre ++ [p]) (scan_step client used acc p) hstep
      simpa using this

theorem find_best_inv (snapshot_clients : List SnapshotClient) (used : List Nat)
    (client : ClientInfo) :
    ScanInv client used snapshot_clients.enum
      (find_best snapshot_clients used client) := by
  have h0 : ScanInv client used [] ((none, 0) : Option (Nat × Nat) × Nat) :=
    ⟨rfl, by intro q hq; cases hq⟩
  have := scan_foldl_inv client used snapshot_clients.enum [] (none, 0) h0
  simpa [find_best] using this

theorem enum_mem_get? {α : Type} {l : List α} {q : Nat × α} (h : q ∈ l.enum) :
    l.get? q.1 = some q.2 := by
  rw [List.mem_enum_iff_getElem?] at h
  simpa [List.get?_eq_getElem?] using h

theorem get?_mem_enum {α : Type} {l : List α} {i : Nat} {x : α}
    (h : l.get? i = some x) : (i, x) ∈ l.enum := by
  rw [List.mk_mem_enum_iff_getElem?]
  simpa [List.get?_eq_getElem?] using h

/-- C1: cold-restore identity matching.  First conjunct (acceptance
soundness): a candidate accepted by the scan is unused, its weighted
score is the retained best, is at least 4, and is strictly greater than
the score of every other unused candidate.  Second conjunct (ambiguity):
when two distinct unused candidates tie for the maximal score, the step
changes nothing — no move is emitted for that live client.  Third
conjunct (acceptance effects): an accepted candidate marks its index
used and the live address matched, and appends exactly one
`movetoworkspacesilent` command for the live client's address exactly
when the recorded workspace id differs from the live one. -/
theorem C1_cold_restore_matching :
    (∀ (snapshot_clients : List SnapshotClient) (used : List Nat)
        (client : ClientInfo) (bi bs second_best : Nat),
      find_best snapshot_clients used client = (some (bi, bs), second_best) →
      4 ≤ bs → second_best < bs →
        bi ∉ used ∧
        (∃ sc, snapshot_clients.get? bi = some sc ∧ match_score sc client = bs) ∧
        (∀ j sc, snapshot_clients.get? j = some sc → j ≠ bi → j ∉ used →
          match_score sc client < bs)) ∧
    (∀ (snapshot_clients : List SnapshotClient) (st : ColdState)
        (client : ClientInfo) (i j : Nat) (sci scj : SnapshotClient),
      snapshot_clients.get? i = some sci → snapshot_clients.get? j = some scj →
      i ≠ j → i ∉ st.used_snapshot → j ∉ st.used_snapshot →
      match_score sci client = match_score scj client →
      (∀ k sck, snapshot_clients.get? k = some sck → k ∉ st.used_snapshot →
        match_score sck client ≤ match_score sci client) →
      cold_match_step snapshot_clients st client = st) ∧
    (∀ (snapshot_clients : List SnapshotClient) (st : ColdState)
        (client : ClientInfo) (bi bs second_best : Nat) (sc : SnapshotClient),
      find_best snapshot_clients st.used_snapshot client =
        (some (bi, bs), second_best) →
      4 ≤ bs → second_best < bs → snapshot_clients.get? bi = some sc →
        (cold_match_step snapshot_clients st client).used_snapshot =
          bi :: st.used_snapshot ∧
        (cold_match_step snapshot_clients st client).matched_addresses =
          client.address :: st.matched_addresses ∧
        (cold_match_step snapshot_clients st client).batch.commands =
          (if client.workspace.id ≠ sc.workspace_id then
            st.batch.commands ++
              ["dispatch " ++ "movetoworkspacesilent" ++ " " ++
                (workspace_target sc ++ ",address:" ++ client.address)]
          else st.batch.commands)) := by
  have hsound : ∀ (snapshot_clients : List SnapshotClient) (used : List Nat)
      (client : ClientInfo) (bi bs second_best : Nat),
      find_best snapshot_clients used client = (some (bi, bs), second_best) →
      4 ≤ bs → second_best < bs →
        bi ∉ used ∧
        (∃ sc, snapshot_clients.get? bi = some sc ∧ match_score sc client = bs) ∧
        (∀ j sc, snapshot_clients.get? j = some sc → j ≠ bi → j ∉ used →
          match_score sc client < bs) := by
    intro snapshot_clients used client bi bs second_best hfb h4 hsec
    have hinv := find_best_inv snapshot_clients used client
    rw [hfb] at hinv
    rcases hinv with ⟨hns, hbu, ⟨q0, hq0mem, hq0i, hq0s⟩, hbound, hstrict⟩
    refine ⟨hbu, ?_, ?_⟩
    · refine ⟨q0.2, ?_, hq0s⟩
      have := enum_mem_get? hq0mem
      rwa [hq0i] at this
    · intro j sc hget hji hju
      exact hstrict hsec (j, sc) (get?_mem_enum hget) hji hju
  refine ⟨hsound, ?_, ?_⟩
  · intro snapshot_clients st client i j sci scj hgi hgj hij hiu hju heq hmax
    rcases hfb : find_best snapshot_clients st.used_snapshot client with ⟨b, sec⟩
    cases b with
    | none => simp [cold_match_step, hfb]
    | some pair =>
        rcases pair with ⟨bi, bs⟩
        by_cases hacc : 4 ≤ bs ∧ sec < bs
        · exfalso
          rcases hsound snapshot_clients st.used_snapshot client bi bs sec hfb
            hacc.1 hacc.2 with ⟨hbu, ⟨sc0, hsc0, hsc0s⟩, hall⟩
          have hbs_le : bs ≤ match_score sci client := by
            have := hmax bi sc0 hsc0 hbu
            omega
          by_cases hib : i = bi
          · have hjb : j ≠ bi := fun hc => hij (hib.trans hc.symm)
            have := hall j scj hgj hjb hju
            omega
          · have := hall i sci hgi hib hiu
            omega
        · simp [cold_match_step, hfb, hacc]
  · intro snapshot_clients st client bi bs second_best sc hfb h4 hsec hget
    have hguard : 4 ≤ bs ∧ second_best < bs := ⟨h4, hsec⟩
    simp only [cold_match_step, hfb, if_pos hguard, hget, Option.getD_some]
    refine ⟨trivial, trivial, ?_⟩
    by_cases hdiff : client.workspace.id ≠ sc.workspace_id
    · simp [hdiff, HyprctlBatch.dispatch]
    · simp [hdiff]

/-- Fixtures for the C1 witness: the app-id match from the repository's
cold-restore test. -/
def nautilus_snapshot_client : SnapshotClient :=
  ⟨"0xabc", none, none, none, none, some "org.gnome.Nautilus", none, 4, none, 4⟩

/-- Live client matching `nautilus_snapshot_client` by app id only. -/
def nautilus_client : ClientInfo :=
  ⟨"0xdef", ⟨1, none⟩, none, none, none, none, some "org.gnome.Nautilus", none⟩

/-- Initial cold-restore state. -/
def cold_state0 : ColdState := ⟨HyprctlBatch.new, [], []⟩

/-- C1 (witness): the acceptance-effects conjunct applied at the app-id
fixture — score 4 accepted, one move emitted, candidate marked used. -/
theorem C1_witness :
    (cold_match_step [nautilus_snapshot_client] cold_state0
        nautilus_client).used_snapshot = 0 :: cold_state0.used_snapshot ∧
      (cold_match_step [nautilus_snapshot_client] cold_state0
          nautilus_client).matched_addresses =
        nautilus_client.address :: cold_state0.matched_addresses ∧
      (cold_match_step [nautilus_snapshot_client] cold_state0
          nautilus_client).batch.commands =
        (if nautilus_client.workspace.id ≠ nautilus_snapshot_client.workspace_id then
          cold_state0.batch.commands ++
            ["dispatch " ++ "movetoworkspacesilent" ++ " " ++
              (workspace_target nautilus_snapshot_client ++ ",address:" ++
                nautilus_client.address)]
        else cold_state0.batch.commands) :=
  C1_cold_restore_matching.2.2 [nautilus_snapshot_client] cold_state0 nautilus_client
    0 4 0 nautilus_snapshot_client (by decide) (by decide) (by decide) (by decide)

/-!
Per-address move counting for C10.
-/

/-- Occurrences of an address among the live clients. -/
def count_address (clients : List ClientInfo) (addr : String) : Nat :=
  (clients.map (fun c => c.address)).count addr

theorem moves_for_address_append (moves : List (String × String))
    (t a addr : String) :
    moves_for_address (moves ++ [(t, a)]) addr =
      moves_for_address moves addr + (if a = addr then 1 else 0) := by
  by_cases h : a = addr <;>
    simp [moves_for_address, List.filter_append, h]

/-- The identity-matching step either changes nothing, or marks the
client's address matched and one candidate used while appending at most
one move carrying the client's own address. -/
theorem cold_match_step_m_shape (cands : List SnapshotClient) (st : ColdStateM)
    (client : ClientInfo) :
    cold_match_step_m cands st client = st ∨
    (∃ idx target,
      cold_match_step_m cands st client =
        ⟨st.moves ++ [(target, client.address)], idx :: st.used_snapshot,
          client.address :: st.matched_addresses⟩) ∨
    (∃ idx,
      cold_match_step_m cands st client =
        ⟨st.moves, idx :: st.used_snapshot,
          client.address :: st.matched_addresses⟩) := by
  rcases hfb : find_best cands st.used_snapshot client with ⟨b, sec⟩
  cases b with
  | none => left; simp [cold_match_step_m, hfb]
  | some pair =>
      rcases pair with ⟨idx, score⟩
      by_cases hacc : 4 ≤ score ∧ sec < score
      · by_cases hdiff :
          client.workspace.id = ((cands.get? idx).getD default).workspace_id
        · right; right
          refine ⟨idx, ?_⟩
          rw [cold_match_step_m, hfb]
          simp only [if_pos hacc]
          rw [if_neg (fun hc => hc hdiff)]
        · right; left
          refine ⟨idx, workspace_target ((cands.get? idx).getD default), ?_⟩
          rw [cold_match_step_m, hfb]
          simp only [if_pos hacc]
          rw [if_pos hdiff]
      · left; simp [cold_match_step_m, hfb, hacc]

/-- The fallback step either changes nothing or, for a client whose
address is unmatched, appends at most one move carrying that address. -/
theorem cold_fallback_step_m_shape (paired_offset : Nat)
    (matched_addresses : List String) (moves : List (String × String))
    (client : ClientInfo) :
    cold_fallback_step_m paired_offset matched_addresses moves client = moves ∨
    (client.address ∉ matched_addresses ∧
      cold_fallback_step_m paired_offset matched_addresses moves client =
        moves ++ [(toString (normalize_workspace client.workspace.id paired_offset),
          client.address)]) := by
  by_cases hm : client.address ∈ matched_addresses
  · left; simp [cold_fallback_step_m, hm]
  · by_cases hsp : is_special_workspace_name client.workspace.name = true
    · left; simp [cold_fallback_step_m, hm, hsp]
    · by_cases hdiff :
        normalize_workspace client.workspace.id paired_offset ≠ client.workspace.id
      · right
        exact ⟨hm, by simp [cold_fallback_step_m, hm, hsp, hdiff]⟩
      · left; simp [cold_fallback_step_m, hm, hsp, hdiff]

theorem phase1_matched_mono (cands : List SnapshotClient) :
    ∀ (clients : List ClientInfo) (st : ColdStateM) (addr : String),
      addr ∈ st.matched_addresses →
      addr ∈ (clients.foldl (cold_match_step_m cands) st).matched_addresses := by
  intro clients
  induction clients with
  | nil => intro st addr h; simpa using h
  | cons c rest ih =>
      intro st addr h
      rw [List.foldl_cons]
      rcases cold_match_step_m_shape cands st c with hs | ⟨idx, tgt, hs⟩ | ⟨idx, hs⟩
      · rw [hs]; exact ih st addr h
      · refine ih _ addr ?_
        rw [hs]
        exact List.mem_cons_of_mem _ h
      · refine ih _ addr ?_
        rw [hs]
        exact List.mem_cons_of_mem _ h

theorem phase1_count (cands : List SnapshotClient) :
    ∀ (clients : List ClientInfo) (st : ColdStateM) (addr : String),
      moves_for_address (clients.foldl (cold_match_step_m cands) st).moves addr ≤
        moves_for_address st.moves addr + count_address clients addr := by
  intro clients
  induction clients with
  | nil => intro st addr; simp [count_address]
  | cons c rest ih =>
      intro st addr
      rw [List.foldl_cons]
      have hcnt : count_address (c :: rest) addr =
          (if c.address = addr then 1 else 0) + count_address rest addr := by
        by_cases h' : c.address = addr <;>
          simp [count_address, List.count_cons, h'] <;> omega
      rw [hcnt]
      have hite : (if c.address = addr then 1 else 0) ≤ 1 := by
        by_cases h' : c.address = addr <;> simp [h']
      rcases cold_match_step_m_shape cands st c with hs | ⟨idx, tgt, hs⟩ | ⟨idx, hs⟩ <;>
        rw [hs]
      · have := ih st addr
        omega
      · have := ih ⟨st.moves ++ [(tgt, c.address)], idx :: st.used_snapshot,
          c.address :: st.matched_addresses⟩ addr
        dsimp only at this
        rw [moves_for_address_append] at this
        omega
      · have := ih ⟨st.moves, idx :: st.used_snapshot,
          c.address :: st.matched_addresses⟩ addr
        dsimp only at this
        omega

theorem phase1_move_matched (cands : List SnapshotClient) :
    ∀ (clients : List ClientInfo) (st : ColdStateM) (addr : String),
      moves_for_address st.moves addr <
        moves_for_address (clients.foldl (cold_match_step_m cands) st).moves addr →
      addr ∈ (clients.foldl (cold_match_step_m cands) st).matched_addresses := by
  intro clients
  induction clients with
  | nil => intro st addr h; simp at h
  | cons c rest ih =>
      intro st addr h
      rw [List.foldl_cons] at h ⊢
      rcases cold_match_step_m_shape cands st c with hs | ⟨idx, tgt, hs⟩ | ⟨idx, hs⟩
      · rw [hs] at h ⊢
        exact ih st addr h
      · rw [hs] at h ⊢
        by_cases hc : c.address = addr
        · refine phase1_matched_mono cands rest _ addr ?_
          dsimp only
          rw [hc]
          exact List.mem_cons_self _ _
        · refine ih _ addr ?_
          dsimp only
          rw [moves_for_address_append, if_neg hc, Nat.add_zero]
          exact h
      · rw [hs] at h ⊢
        refine ih _ addr h

theorem phase2_count (paired_offset : Nat) (matched_addresses : List String) :
    ∀ (clients : List ClientInfo) (moves : List (String × String)) (addr : String),
      moves_for_address
          (clients.foldl (cold_fallback_step_m paired_offset matched_addresses) moves)
          addr ≤
        moves_for_address moves addr +
          (if addr ∈ matched_addresses then 0 else count_address clients addr) := by
  intro clients
  induction clients with
  | nil =>
      intro moves addr
      by_cases h : addr ∈ matched_addresses <;> simp [count_address, h]
  | cons c rest ih =>
      intro moves addr
      rw [List.foldl_cons]
      have hcnt : count_address (c :: rest) addr =
          (if c.address = addr then 1 else 0) + count_address rest addr := by
        by_cases h' : c.address = addr <;>
          simp [count_address, List.count_cons, h'] <;> omega
      rcases cold_fallback_step_m_shape paired_offset matched_addresses moves c with
        hs | ⟨hnm, hs⟩
      · rw [hs]
        have := ih moves addr
        by_cases h : addr ∈ matched_addresses
        · simpa [h] using this
        · rw [if_neg h] at this ⊢
          rw [hcnt]
          omega
      · rw [hs]
        have := ih (moves ++
          [(toString (normalize_workspace c.workspace.id paired_offset), c.address)]) addr
        by_cases h : addr ∈ matched_addresses
        · have hca : ¬ c.address = addr := fun hc => hnm (hc ▸ h)
          rw [if_pos h] at this ⊢
          rw [moves_for_address_append, if_neg hca] at this
          omega
        · rw [if_neg h] at this ⊢
          rw [moves_for_address_append] at this
          rw [hcnt]
          omega

/-- One step of the identity-matching phase: the string-building version
and the ghost move version make the same decisions, the batch staying the
pointwise rendering of the move list. -/
theorem cold_match_step_corr (cands : List SnapshotClient) (st : ColdState)
    (stm : ColdStateM) (c : ClientInfo)
    (h1 : st.batch.commands = stm.moves.map render_move)
    (h2 : st.used_snapshot = stm.used_snapshot)
    (h3 : st.matched_addresses = stm.matched_addresses) :
    (cold_match_step cands st c).batch.commands =
        (cold_match_step_m cands stm c).moves.map render_move ∧
      (cold_match_step cands st c).used_snapshot =
        (cold_match_step_m cands stm c).used_snapshot ∧
      (cold_match_step cands st c).matched_addresses =
        (cold_match_step_m cands stm c).matched_addresses := by
  rcases hfb : find_best cands stm.used_snapshot c with ⟨b, sec⟩
  cases b with
  | none =>
      rw [cold_match_step, cold_match_step_m, h2, hfb]
      exact ⟨h1, h2, h3⟩
  | some pair =>
      rcases pair with ⟨idx, score⟩
      by_cases hacc : 4 ≤ score ∧ sec < score
      · by_cases hdiff :
          c.workspace.id = ((cands.get? idx).getD default).workspace_id
        · rw [cold_match_step, cold_match_step_m, h2, hfb]
          simp only [if_pos hacc]
          rw [if_neg (fun hc => hc hdiff), if_neg (fun hc => hc hdiff)]
          exact ⟨h1, by simp [h2], by simp [h3]⟩
        · rw [cold_match_step, cold_match_step_m, h2, hfb]
          simp only [if_pos hacc]
          rw [if_pos hdiff, if_pos hdiff]
          refine ⟨?_, by simp [h2], by simp [h3]⟩
          simp only [HyprctlBatch.dispatch, List.map_append, h1, render_move]
          rfl
      · rw [cold_match_step, cold_match_step_m, h2, hfb]
        simp only [if_neg hacc]
        exact ⟨h1, h2, h3⟩

theorem match_fold_corr (cands : List SnapshotClient) :
    ∀ (clients : List ClientInfo) (st : ColdState) (stm : ColdStateM),
      st.batch.commands = stm.moves.map render_move →
      st.used_snapshot = stm.used_snapshot →
      st.matched_addresses = stm.matched_addresses →
      (clients.foldl (cold_match_step cands) st).batch.commands =
          ((clients.foldl (cold_match_step_m cands) stm).moves).map render_move ∧
        (clients.foldl (cold_match_step cands) st).used_snapshot =
          (clients.foldl (cold_match_step_m cands) stm).used_snapshot ∧
        (clients.foldl (cold_match_step cands) st).matched_addresses =
          (clients.foldl (cold_match_step_m cands) stm).matched_addresses := by
  intro clients
  induction clients with
  | nil => intro st stm h1 h2 h3; exact ⟨h1, h2, h3⟩
  | cons c rest ih =>
      intro st stm h1 h2 h3
      rw [List.foldl_cons, List.foldl_cons]
      rcases cold_match_step_corr cands st stm c h1 h2 h3 with ⟨g1, g2, g3⟩
      exact ih _ _ g1 g2 g3

/-- One step of the fallback phase, same correspondence. -/
theorem cold_fallback_step_corr (paired_offset : Nat)
    (matched_addresses : List String) (batch : HyprctlBatch)
    (moves : List (String × String)) (c : ClientInfo)
    (h : batch.commands = moves.map render_move) :
    (cold_fallback_step paired_offset matched_addresses batch c).commands =
      (cold_fallback_step_m paired_offset matched_addresses moves c).map
        render_move := by
  by_cases hm : c.address ∈ matched_addresses
  · simp only [cold_fallback_step, cold_fallback_step_m, if_pos hm]
    exact h
  · by_cases hsp : is_special_workspace_name c.workspace.name = true
    · simp only [cold_fallback_step, cold_fallback_step_m, if_neg hm, if_pos hsp]
      exact h
    · by_cases hdiff :
        normalize_workspace c.workspace.id paired_offset = c.workspace.id
      · simp only [cold_fallback_step, cold_fallback_step_m, if_neg hm, if_neg hsp]
        rw [if_neg (fun hc => hc hdiff), if_neg (fun hc => hc hdiff)]
        exact h
      · simp only [cold_fallback_step, cold_fallback_step_m, if_neg hm, if_neg hsp]
        rw [if_pos hdiff, if_pos hdiff]
        simp only [HyprctlBatch.dispatch, List.map_append, h, render_move]
        rfl

theorem fallback_fold_corr (paired_offset : Nat) (matched_addresses : List String) :
    ∀ (clients : List ClientInfo) (batch : HyprctlBatch)
      (moves : List (String × String)),
      batch.commands = moves.map render_move →
      (clients.foldl (cold_fallback_step paired_offset matched_addresses)
          batch).commands =
        (clients.foldl (cold_fallback_step_m paired_offset matched_addresses)
          moves).map render_move := by
  intro clients
  induction clients with
  | nil => intro batch moves h; exact h
  | cons c rest ih =>
      intro batch moves h
      rw [List.foldl_cons, List.foldl_cons]
      exact ih _ _ (cold_fallback_step_corr paired_offset matched_addresses
        batch moves c h)

/-- Two snapshot candidates on different workspaces, distinguishable by
app id. -/
def dup_snapshot : SessionSnapshot :=
  ⟨1, 0, none, 10, 10, ⟨none, 1⟩, [], [],
    [⟨"0x1", none, none, none, none, some "appx", none, 5, none, 5⟩,
      ⟨"0x2", none, none, none, none, some "appy", none, 6, none, 6⟩]⟩

/-- Two live entries carrying the same address but different app ids. -/
def dup_client1 : ClientInfo :=
  ⟨"0xaaa", ⟨1, none⟩, none, none, none, none, some "appx", none⟩

/-- Second live entry with the duplicated address. -/
def dup_client2 : ClientInfo :=
  ⟨"0xaaa", ⟨1, none⟩, none, none, none, none, some "appy", none⟩

/-- Configuration used by the C10 scenarios. -/
def dup_config : Config := ⟨"DP-1", "HDMI-A-1", 10, 10⟩

/-- C10 (counterexample): for a live-client list that repeats one address
with different identities, the cold-restore batch targets that address
twice — the claimed bound fails without an address-uniqueness
assumption. -/
theorem C10_counterexample :
    (restore_cold_session dup_snapshot [dup_client1, dup_client2] dup_config).commands =
        ["dispatch movetoworkspacesilent 5,address:0xaaa",
          "dispatch movetoworkspacesilent 6,address:0xaaa"] ∧
      moves_for_address
        (cold_moves dup_snapshot.clients [dup_client1, dup_client2]
          dup_config.paired_offset) "0xaaa" = 2 ∧
      dup_client1.address = "0xaaa" ∧ dup_client2.address = "0xaaa" := by
  refine ⟨?_, by decide, by decide, by decide⟩
  decide

/-- C10 (amended): when the live clients carry pairwise-distinct
addresses, the cold-restore batch contains at most one
`movetoworkspacesilent` per address; the batch is the rendering of the
ghost move list, whose per-address count is bounded by one. -/
theorem C10_one_move_per_address (snapshot : SessionSnapshot)
    (current_clients : List ClientInfo) (config : Config) (addr : String)
    (hnd : (current_clients.map (fun c => c.address)).Nodup) :
    moves_for_address
        (cold_moves snapshot.clients current_clients config.paired_offset) addr ≤ 1 ∧
      (restore_cold_session snapshot current_clients config).commands =
        (cold_moves snapshot.clients current_clients config.paired_offset).map
          render_move := by
  have hcount1 : count_address current_clients addr ≤ 1 := by
    have := List.nodup_iff_count_le_one.mp hnd addr
    simpa [count_address] using this
  constructor
  · simp only [cold_moves]
    have hmz : moves_for_address
        (([] : List ClientInfo).foldl (cold_match_step_m snapshot.clients)
          ⟨[], [], []⟩).moves addr = 0 := by
      simp [moves_for_address]
    have hp1 := phase1_count snapshot.clients current_clients ⟨[], [], []⟩ addr
    have hp2 := phase2_count config.paired_offset
      (current_clients.foldl (cold_match_step_m snapshot.clients)
        ⟨[], [], []⟩).matched_addresses current_clients
      (current_clients.foldl (cold_match_step_m snapshot.clients) ⟨[], [], []⟩).moves
      addr
    simp only [moves_for_address, List.filter_nil, List.length_nil] at hmz
    by_cases hm : addr ∈
        (current_clients.foldl (cold_match_step_m snapshot.clients)
          ⟨[], [], []⟩).matched_addresses
    · rw [if_pos hm] at hp2
      have : moves_for_address
          (current_clients.foldl (cold_match_step_m snapshot.clients)
            ⟨[], [], []⟩).moves addr ≤ count_address current_clients addr := by
        have h0 : moves_for_address (ColdStateM.mk [] [] []).moves addr = 0 := by
          simp [moves_for_address]
        omega
      omega
    · rw [if_neg hm] at hp2
      have hzero : moves_for_address
          (current_clients.foldl (cold_match_step_m snapshot.clients)
            ⟨[], [], []⟩).moves addr = 0 := by
        by_contra hne
        have hpos : 0 < moves_for_address
            (current_clients.foldl (cold_match_step_m snapshot.clients)
              ⟨[], [], []⟩).moves addr := Nat.pos_of_ne_zero hne
        have h0 : moves_for_address (ColdStateM.mk [] [] []).moves addr = 0 := by
          simp [moves_for_address]
        exact hm (phase1_move_matched snapshot.clients current_clients
          ⟨[], [], []⟩ addr (by omega))
      omega
  · simp only [restore_cold_session, cold_moves]
    rcases match_fold_corr snapshot.clients current_clients
        ⟨HyprctlBatch.new, [], []⟩ ⟨[], [], []⟩ (by simp [HyprctlBatch.new]) rfl rfl
      with ⟨g1, g2, g3⟩
    rw [g3]
    exact fallback_fold_corr config.paired_offset _ current_clients _ _ g1

/-- C10 (witness): the amended theorem applied at a single live client —
the count is bounded by one and the rendering identity holds. -/
theorem C10_witness :
    moves_for_address
        (cold_moves dup_snapshot.clients [dup_client1] dup_config.paired_offset)
        "0xaaa" ≤ 1 ∧
      (restore_cold_session dup_snapshot [dup_client1] dup_config).commands =
        (cold_moves dup_snapshot.clients [dup_client1]
          dup_config.paired_offset).map render_move :=
  C10_one_move_per_address dup_snapshot [dup_client1] dup_config "0xaaa" (by decide)

/-- Snapshot parameterized over its version field, with one client
recorded on workspace 2. -/
def version_snapshot (v : Nat) : SessionSnapshot :=
  ⟨v, 0, some "sig", 10, 10, ⟨none, 1⟩, [], [],
    [⟨"0xabc", none, none, none, none, none, none, 2, none, 2⟩]⟩

/-- Live client for the version scenario, currently on workspace 1. -/
def version_client : ClientInfo :=
  ⟨"0xabc", ⟨1, none⟩, none, none, none, none, none, none⟩

/-- Configuration for the version scenario. -/
def version_config : Config := ⟨"DP-1", "HDMI-A-1", 10, 10⟩

/-- C3: `restore_session` never inspects the snapshot's `version` field —
the restore outcome is identical for every version value, and a snapshot
with the unsupported version 999 still produces (and would dispatch) move
commands instead of failing. -/
theorem C3_version_never_checked :
    (∀ (snapshot : SessionSnapshot) (v : Nat) (mode : RestoreMode)
        (sig : Option String) (clients : List ClientInfo) (config : Config),
      restore_session_commands { snapshot with version := v } mode sig clients
          config =
        restore_session_commands snapshot mode sig clients config) ∧
      restore_session_commands (version_snapshot 999) RestoreMode.same
          (some "sig") [version_client] version_config =
        ["dispatch movetoworkspacesilent 2,address:0xabc"] ∧
      (version_snapshot 999).version = 999 := by
  refine ⟨?_, by decide, by decide⟩
  intro snapshot v mode sig clients config
  rfl

/-!
`src/hyprctl.rs`: the paired-switch and rebalance batch builders.
-/

/-- The batch value built inside `paired_switch_batch`; the `u32`
addition `normalized + offset` wraps at `u32size`. -/
def paired_switch_batch_value (primary secondary : String)
    (workspace offset : Nat) : HyprctlBatch :=
  let normalized := normalize_workspace workspace offset
  let secondary_workspace := (normalized + offset) % u32size
  ((((HyprctlBatch.new).dispatch "focusmonitor" secondary).dispatch
      "workspace" (toString secondary_workspace)).dispatch
    "focusmonitor" primary).dispatch "workspace" (toString normalized)

/-- Embeds `src/hyprctl.rs`: `paired_switch_batch`. -/
def paired_switch_batch (primary secondary : String) (workspace offset : Nat) :
    String :=
  (paired_switch_batch_value primary secondary workspace offset).to_argument

/-- Inclusive range `a..=b` as a list. -/
def range_incl (a b : Nat) : List Nat := List.range' a (b + 1 - a)

/-- Embeds `src/hyprctl.rs`: `rebalance_batch` — workspaces `1..=offset` to the
primary monitor, `offset+1..=offset*2` to the secondary, one command
each; `offset * 2` wraps at `u32size`. -/
def rebalance_batch (primary secondary : String) (offset : Nat) : String :=
  let b1 := (range_incl 1 offset).foldl
    (fun b wid => b.dispatch "moveworkspacetomonitor" (toString wid ++ " " ++ primary))
    HyprctlBatch.new
  let b2 := (range_incl (offset + 1) ((offset * 2) % u32size)).foldl
    (fun b wid => b.dispatch "moveworkspacetomonitor" (toString wid ++ " " ++ secondary))
    b1
  b2.to_argument

/-- C9: for every pair of monitor names, workspace and offset ≥ 1, the
paired-switch batch is exactly four dispatches, in order: focus the
secondary monitor, select its paired workspace (the normalized slot plus
the offset, as `u32` addition), focus the chosen monitor, select the
requested workspace — so the final focus lands on the caller's monitor;
when the sum does not overflow it is literally `normalized + offset`. -/
theorem C9_paired_switch_order (primary secondary : String)
    (workspace offset : Nat) (hoff : 1 ≤ offset) :
    (paired_switch_batch_value primary secondary workspace offset).commands =
        ["dispatch " ++ "focusmonitor" ++ " " ++ secondary,
          "dispatch " ++ "workspace" ++ " " ++
            toString ((normalize_workspace workspace offset + offset) % u32size),
          "dispatch " ++ "focusmonitor" ++ " " ++ primary,
          "dispatch " ++ "workspace" ++ " " ++
            toString (normalize_workspace workspace offset)] ∧
      (paired_switch_batch_value primary secondary workspace offset).commands.length
        = 4 ∧
      paired_switch_batch primary secondary workspace offset =
        join_commands
          (paired_switch_batch_value primary secondary workspace offset).commands ∧
      (normalize_workspace workspace offset + offset < u32size →
        toString ((normalize_workspace workspace offset + offset) % u32size) =
          toString (normalize_workspace workspace offset + offset)) := by
  refine ⟨rfl, rfl, rfl, ?_⟩
  intro h
  rw [Nat.mod_eq_of_lt h]

/-- C9 (witness): the theorem applied at the repository's own test
vector (`DP-1`, `HDMI-A-1`, workspace 12, offset 10). -/
theorem C9_witness :
    (paired_switch_batch_value "DP-1" "HDMI-A-1" 12 10).commands =
        ["dispatch " ++ "focusmonitor" ++ " " ++ "HDMI-A-1",
          "dispatch " ++ "workspace" ++ " " ++
            toString ((normalize_workspace 12 10 + 10) % u32size),
          "dispatch " ++ "focusmonitor" ++ " " ++ "DP-1",
          "dispatch " ++ "workspace" ++ " " ++ toString (normalize_workspace 12 10)] :=
  (C9_paired_switch_order "DP-1" "HDMI-A-1" 12 10 (by decide)).1

/-!
`src/daemon.rs` event classification and the `Command::Daemon` loop of
`src/cli.rs`.
-/

/-- Embeds `src/daemon.rs`: `enum MonitorEventKind`. -/
inductive MonitorEventKind where
  | added
  | removed
deriving DecidableEq, Repr

/-- Embeds `src/daemon.rs`: `struct FocusEvent` (`Instant` as `Nat`). -/
structure FocusEvent where
  at_ : Nat
  workspace_id : Option Nat
  window_address : Option String
deriving DecidableEq, Repr

/-- Embeds `src/daemon.rs`: `enum DaemonEvent`. -/
inductive DaemonEvent where
  | focus (event : FocusEvent)
  | monitor (kind : MonitorEventKind) (at_ : Nat)
  | timeout (at_ : Nat)
  | disconnected
deriving DecidableEq, Repr

/-- Embeds `src/daemon.rs`: `parse_workspace_id_from_name`. -/
def parse_workspace_id_from_name (name : String) : Option Nat :=
  parse_u32 name

/-- Embeds `src/daemon.rs`: `parse_first_field`. -/
def parse_first_field (payload : String) : Option Nat :=
  match split_once payload "," with
  | some (first, _) => parse_u32 first
  | none => none

/-- Embeds `src/daemon.rs`: `parse_second_field`. -/
def parse_second_field (payload : String) : Option Nat :=
  match split_once payload "," with
  | some (_, second) => parse_u32 second
  | none => none

/-- Embeds `src/daemon.rs`: `parse_socket2_event` — the Rust multi-pattern
`match` on the event name becomes an if-chain; unknown names yield
`none`. -/
def parse_socket2_event (line : String) (at_ : Nat) : Option DaemonEvent :=
  match split_once line ">>" with
  | none => none
  | some (name, payload) =>
      if name = "monitoradded" ∨ name = "monitoraddedv2" then
        some (DaemonEvent.monitor MonitorEventKind.added at_)
      else if name = "monitorremoved" ∨ name = "monitorremovedv2" then
        some (DaemonEvent.monitor MonitorEventKind.removed at_)
      else if name = "workspacev2" then
        (parse_first_field payload).map
          (fun workspace_id => DaemonEvent.focus ⟨at_, some workspace_id, none⟩)
      else if name = "workspace" then
        (parse_workspace_id_from_name payload).map
          (fun workspace_id => DaemonEvent.focus ⟨at_, some workspace_id, none⟩)
      else if name = "focusedmonv2" then
        (parse_second_field payload).map
          (fun workspace_id => DaemonEvent.focus ⟨at_, some workspace_id, none⟩)
      else if name = "focusedmon" then
        (parse_second_field payload).map
          (fun workspace_id => DaemonEvent.focus ⟨at_, some workspace_id, none⟩)
      else if name = "activewindowv2" then
        let address := str_trim payload
        if address = "" then none
        else some (DaemonEvent.focus ⟨at_, none, some address⟩)
      else none

/-- One blocking read on the notification socket, as the daemon loop in
`src/cli.rs` distinguishes the cases of `read_line`. -/
inductive ReadResult where
  | line (s : String) (at_ : Nat)
  | timedOut (at_ : Nat)
  | closed
  | fatal (e : String)
deriving DecidableEq, Repr

/-- Environment model of the control interface: the outcome of the n-th
batch call, given the batch argument. -/
def IpcOracle : Type := Nat → String → Except String String

/-- Embeds `src/daemon.rs`: `rebalance_for_event_at` — build the rebalance
batch, ask the debounce, dispatch when it fires; a failed dispatch is
returned as an error.  The call counter threads the oracle. -/
def rebalance_for_event_at (ipc : IpcOracle) (calls : Nat) (config : Config)
    (kind : MonitorEventKind) (debounce : RebalanceDebounce) (now : Nat) :
    Except String (Bool × RebalanceDebounce × Nat) :=
  let batch :=
    match kind with
    | MonitorEventKind.added => rebalance_batch config.primary_monitor
        config.secondary_monitor config.paired_offset
    | MonitorEventKind.removed => rebalance_batch config.primary_monitor
        config.secondary_monitor config.paired_offset
  let r := debounce.record_event now
  if r.1 then
    match ipc calls batch with
    | Except.ok _ => Except.ok (true, r.2, calls + 1)
    | Except.error e => Except.error e
  else Except.ok (false, r.2, calls)

/-- Embeds `src/daemon.rs`: `rebalance_for_event_debounced`. -/
def rebalance_for_event_debounced (ipc : IpcOracle) (calls : Nat)
    (config : Config) (line : String) (now : Nat)
    (debounce : RebalanceDebounce) :
    Except String (Bool × RebalanceDebounce × Nat) :=
  match parse_socket2_event line now with
  | some (DaemonEvent.monitor kind at_) =>
      rebalance_for_event_at ipc calls config kind debounce at_
  | _ => Except.ok (false, debounce, calls)

/-- Embeds `src/daemon.rs`: `flush_pending_rebalance_at`. -/
def flush_pending_rebalance_at (ipc : IpcOracle) (calls : Nat) (config : Config)
    (debounce : RebalanceDebounce) (now : Nat) :
    Except String (Bool × RebalanceDebounce × Nat) :=
  let r := debounce.flush now
  if r.1 then
    match ipc calls (rebalance_batch config.primary_monitor
        config.secondary_monitor config.paired_offset) with
    | Except.ok _ => Except.ok (true, r.2, calls + 1)
    | Except.error e => Except.error e
  else Except.ok (false, r.2, calls)

/-- The `Command::Daemon` loop of `src/cli.rs` over a finite prefix of
reads: non-empty lines feed `rebalance_for_event_debounced`, timeouts
feed `flush_pending_rebalance_at`, `Ok(0)` breaks, other IO errors
return; both `?` operators propagate an error out of the loop. -/
def daemon_loop (ipc : IpcOracle) (config : Config) :
    List ReadResult → RebalanceDebounce → Nat → Except String Unit
  | [], _, _ => Except.ok ()
  | ReadResult.closed :: _, _, _ => Except.ok ()
  | ReadResult.fatal e :: _, _, _ => Except.error e
  | ReadResult.line s at_ :: rest, debounce, calls =>
      let trimmed := str_trim_end s
      if trimmed = "" then daemon_loop ipc config rest debounce calls
      else
        match rebalance_for_event_debounced ipc calls config trimmed at_ debounce with
        | Except.ok (_, debounce', calls') =>
            daemon_loop ipc config rest debounce' calls'
        | Except.error e => Except.error e
  | ReadResult.timedOut at_ :: rest, debounce, calls =>
      match flush_pending_rebalance_at ipc calls config debounce at_ with
      | Except.ok (_, debounce', calls') =>
          daemon_loop ipc config rest debounce' calls'
      | Except.error e => Except.error e

/-- Oracle whose first batch call fails and whose later calls succeed. -/
def ipc_fail_first : IpcOracle :=
  fun n _ => if n = 0 then Except.error "dispatch failed" else Except.ok "ok"

/-- Configuration for the daemon-loop scenarios. -/
def daemon_config : Config := ⟨"DP-1", "HDMI-A-1", 2, 2⟩

/-- C2 (counterexample): with the first dispatch failing, the daemon loop
returns that error; a subsequent monitor event in the stream is never
processed — the result is the same with or without it — even though that
event would have been handled fine (the loop over it alone succeeds with
the next call index). -/
theorem C2_counterexample :
    daemon_loop ipc_fail_first daemon_config
        [ReadResult.line "monitoradded>>DP-1" 0,
          ReadResult.line "monitoraddedv2>>1,HDMI-A-1,desc" 1000]
        (RebalanceDebounce.new 200) 0 = Except.error "dispatch failed" ∧
      daemon_loop ipc_fail_first daemon_config
          [ReadResult.line "monitoradded>>DP-1" 0]
          (RebalanceDebounce.new 200) 0 = Except.error "dispatch failed" ∧
      daemon_loop ipc_fail_first daemon_config
          [ReadResult.line "monitoraddedv2>>1,HDMI-A-1,desc" 1000]
          (RebalanceDebounce.new 200) 1 = Except.ok () :=
  ⟨rfl, rfl, rfl⟩

/-- C2 (amended): a failed dispatch inside the daemon loop terminates the
loop at once with that error; the remaining stream items are never read
or processed (the result is independent of `rest`). -/
theorem C2_dispatch_error_terminates_loop (ipc : IpcOracle) (config : Config)
    (s : String) (now : Nat) (rest : List ReadResult)
    (debounce : RebalanceDebounce) (calls : Nat) (e : String)
    (hne : str_trim_end s ≠ "")
    (herr : rebalance_for_event_debounced ipc calls config (str_trim_end s) now
      debounce = Except.error e) :
    daemon_loop ipc config (ReadResult.line s now :: rest) debounce calls =
      Except.error e := by
  rw [daemon_loop]
  simp only [if_neg hne, herr]

/-- C2 (witness): the amended theorem at the concrete failing stream. -/
theorem C2_witness :
    daemon_loop ipc_fail_first daemon_config
        [ReadResult.line "monitoradded>>DP-1" 0,
          ReadResult.line "monitoraddedv2>>1,HDMI-A-1,desc" 1000]
        (RebalanceDebounce.new 200) 0 = Except.error "dispatch failed" :=
  C2_dispatch_error_terminates_loop ipc_fail_first daemon_config
    "monitoradded>>DP-1" 0 [ReadResult.line "monitoraddedv2>>1,HDMI-A-1,desc" 1000]
    (RebalanceDebounce.new 200) 0 "dispatch failed" (by decide) rfl

end Hyprspaces
